import Mathlib

/-!
Shallow embedding of the bus_factor repository's core pipeline
(src/github_api.rs) in Lean 4, together with theorems settling the
specification claims about it.

Modelling conventions:
* Rust `u32`/`u64` values become `Nat` (no claim depends on overflow).
* Rust `f64` shares become `ℚ`; every number appearing in the claims
  (15/19, 3/4, ...) is exactly representable.
* The transport layer (`GithubClient::get_response_body`) is a parameter:
  for contributor fetches an oracle `String → Except ApiError Contributions`
  keyed by the endpoint string the code builds, for repository-page fetches
  an oracle `Nat → Nat → Except ApiError Repos` keyed by `(page, per_page)`.
* Fallible Rust code returns `Except`; a Rust panic (out-of-bounds index or
  slice) is the `Outcome.panicked` constructor.
* Functions additionally return the list of transport calls they issued, so
  that "no fetch occurs" claims are statable.
-/

namespace BusFactor

/-- Mirrors `RepoData` of src/github_data.rs. -/
structure RepoData where
  contributors_url : String
  name : String
  stargazers_count : Nat
deriving DecidableEq

/-- Mirrors `Repos` of src/github_data.rs. -/
structure Repos where
  items : List RepoData
deriving DecidableEq

/-- Mirrors `ContributorData` of src/github_data.rs. -/
structure ContributorData where
  contributions : Nat
  login : String
deriving DecidableEq

/-- Mirrors `Contributions` of src/github_data.rs. -/
abbrev Contributions := List ContributorData

/-- Mirrors `BusFactorQuery` of src/github_api.rs. -/
structure BusFactorQuery where
  bus_threshold : ℚ
  users_to_consider : Nat

/-- Mirrors `UserShare` of src/github_api.rs. -/
structure UserShare where
  bus_factor : ℚ
  user_name : String
deriving DecidableEq

/-- Mirrors `BusFactor` of src/github_api.rs (named `BusRes` to avoid
clashing with the namespace). -/
structure BusRes where
  leader : UserShare
  repo_name : String
  stars : Nat
deriving DecidableEq

/-- The two error types of src/api_errors.rs. -/
inductive ApiError where
  | responseError (details : String)
  | invalidQueryError (details : String)
deriving DecidableEq

/-- Result of running a fallible, possibly panicking Rust function. -/
inductive Outcome (α : Type) where
  | panicked
  | error (e : ApiError)
  | ok (a : α)
deriving DecidableEq

/-- Boolean test used to model `join_all` propagating a panic. -/
def Outcome.isPanicked {α : Type} : Outcome α → Bool
  | .panicked => true
  | _ => false

/-- Mirrors `PAGE_LIMIT` of src/github_api.rs. -/
def PAGE_LIMIT : Nat := 100

/-- Mirrors `GithubApi::get_pages`: full pages and residual for a count. -/
def get_pages (count : Nat) : Nat × Nat :=
  (count / PAGE_LIMIT, count % PAGE_LIMIT)

/-- Endpoint string built by `GithubApi::calculate_repo_share`. -/
def contributorsEndpoint (contributors_url : String) (per_page : Nat) : String :=
  contributors_url ++ "?per_page=" ++ toString per_page

/-- Mirrors `GithubApi::calculate_repo_share`.  Returns the outcome and the
list of endpoints for which a transport call was issued.  The `users_to_consider
== 0` check happens before any fetch; on an empty fetched list the code indexes
`contributions[0]`, which panics.  The `f64` quotient
`leader.contributions as f64 / total_contributions as f64` is modelled by the
exact rational `mkRat leader.contributions total_contributions`, which equals
`(leader.contributions : ℚ) / total_contributions` whenever the total is
nonzero (and also when both are zero, where the float would be NaN — a case no
claim touches). -/
def calculate_repo_share (fetch : String → Except ApiError Contributions)
    (contributors_url : String) (users_to_consider : Nat) :
    Outcome UserShare × List String :=
  if users_to_consider = 0 then
    (.error (.invalidQueryError "Number of users to consider must be greater than 0."), [])
  else
    let endpoint := contributorsEndpoint contributors_url users_to_consider
    match fetch endpoint with
    | .error e => (.error e, [endpoint])
    | .ok contributions =>
      let total_contributions :=
        contributions.foldl (fun acc contr => acc + contr.contributions) (0 : Nat)
      match contributions with
      | [] => (.panicked, [endpoint])
      | leader :: _ =>
        (.ok { bus_factor := mkRat leader.contributions total_contributions,
               user_name := leader.login },
         [endpoint])

/-- The per-repository responses collected by `join_all` inside
`GithubApi::get_repos_bus_factor`: one `calculate_repo_share` outcome per
input repository, in input order. -/
def busOutcomes (fetch : String → Except ApiError Contributions)
    (repos : Repos) (query : BusFactorQuery) : List (Outcome UserShare) :=
  repos.items.map fun item =>
    (calculate_repo_share fetch item.contributors_url query.users_to_consider).1

/-- The result-assembly loop of `GithubApi::get_repos_bus_factor`: walk the
responses zipped with their repositories, short-circuit on the first error
(the `item?` in the loop), and keep a repository iff its leader share reaches
the threshold. -/
def busLoop (bus_threshold : ℚ) :
    List (Outcome UserShare × RepoData) → Outcome (List BusRes)
  | [] => .ok []
  | (o, repo) :: rest =>
    match o with
    | .panicked => .panicked
    | .error e => .error e
    | .ok share =>
      match busLoop bus_threshold rest with
      | .ok res =>
        .ok (if bus_threshold ≤ share.bus_factor then
               { repo_name := repo.name,
                 stars := repo.stargazers_count,
                 leader := share } :: res
             else res)
      | .error e => .error e
      | .panicked => .panicked

/-- Mirrors `GithubApi::get_repos_bus_factor`.  A panic inside any of the
joined futures propagates out of `join_all` before the loop runs. -/
def get_repos_bus_factor (fetch : String → Except ApiError Contributions)
    (repos : Repos) (query : BusFactorQuery) : Outcome (List BusRes) :=
  let responses := busOutcomes fetch repos query
  if responses.any Outcome.isPanicked then .panicked
  else busLoop query.bus_threshold (responses.zip repos.items)

/-- First-error collection of the full-page responses, mirroring the
`for res in responses { let repos = res?; ... }` loop of `GithubApi::get_repos`. -/
def collectRepos : List (Except ApiError Repos) → Except ApiError (List Repos)
  | [] => .ok []
  | .error e :: _ => .error e
  | .ok r :: rest => (collectRepos rest).map (fun l => r :: l)

/-- Mirrors `GithubApi::get_repos`.  Returns the outcome and the list of
`(page, per_page)` transport calls issued.  The slice
`res.items[0..last_page]` panics when the remainder page holds fewer than
`last_page` items. -/
def get_repos (fetch : Nat → Nat → Except ApiError Repos) (count : Nat) :
    Outcome Repos × List (Nat × Nat) :=
  let full_pages := (get_pages count).1
  let last_page := (get_pages count).2
  let calls := (List.range full_pages).map (fun i => (i + 1, PAGE_LIMIT))
  let responses := calls.map (fun c => fetch c.1 c.2)
  match collectRepos responses with
  | .error e => (.error e, calls)
  | .ok pages =>
    let items := pages.foldl (fun acc r => acc ++ r.items) []
    let last_page_elements := if full_pages = 0 then last_page else PAGE_LIMIT
    if 0 < last_page then
      let calls2 := calls ++ [(full_pages + 1, last_page_elements)]
      match fetch (full_pages + 1) last_page_elements with
      | .error e => (.error e, calls2)
      | .ok res =>
        if last_page ≤ res.items.length then
          (.ok ⟨items ++ res.items.take last_page⟩, calls2)
        else
          (.panicked, calls2)
    else
      (.ok ⟨items⟩, calls)

/-- The transport calls `get_repos` is specified to issue for a count:
pages `1..full_pages` with `PAGE_LIMIT` items each, then, when there is a
remainder, one more page requesting `PAGE_LIMIT` items (or exactly the
remainder when there are no full pages). -/
def plannedCalls (count : Nat) : List (Nat × Nat) :=
  (List.range (count / PAGE_LIMIT)).map (fun i => (i + 1, PAGE_LIMIT)) ++
    (if 0 < count % PAGE_LIMIT then
       [(count / PAGE_LIMIT + 1, if count / PAGE_LIMIT = 0 then count % PAGE_LIMIT else PAGE_LIMIT)]
     else [])

/-- Error of the first call in the list whose fetch fails, if any. -/
def firstFetchError (fetch : Nat → Nat → Except ApiError Repos) :
    List (Nat × Nat) → Option ApiError
  | [] => none
  | c :: rest =>
    match fetch c.1 c.2 with
    | .error e => some e
    | .ok _ => firstFetchError fetch rest

/-- Error of the first non-ok outcome in a list, skipping panics. -/
def firstErrorOut {α : Type} : List (Outcome α) → Option ApiError
  | [] => none
  | .error e :: _ => some e
  | _ :: rest => firstErrorOut rest

/-- Boolean success test for an `Except` value. -/
def isOkE {ε α : Type} : Except ε α → Bool
  | .ok _ => true
  | .error _ => false

/-- Concrete contributor transport: the `[15, 3, 1]` list of the spec's
share example, served for repository `u1` with `per_page=3`. -/
def fetchC1 : String → Except ApiError Contributions := fun s =>
  if s = "u1?per_page=3" then
    .ok [⟨15, "user1"⟩, ⟨3, "user2"⟩, ⟨1, "user3"⟩]
  else .error (.responseError "unexpected endpoint")

/-- Three repositories for the end-to-end aggregation scenario. -/
def reposC2 : Repos :=
  ⟨[⟨"cu1", "repo1", 260209⟩, ⟨"cu2", "repo2", 79306⟩, ⟨"cu3", "repo3", 61545⟩]⟩

/-- Contributor transport for the aggregation scenario: leader shares
`18/19 ≈ 0.947`, `3/5 = 0.6` and `4/5 = 0.8`. -/
def fetchC2 : String → Except ApiError Contributions := fun s =>
  if s = "cu1?per_page=3" then .ok [⟨18, "big1"⟩, ⟨1, "m1"⟩]
  else if s = "cu2?per_page=3" then .ok [⟨3, "big2"⟩, ⟨2, "m2"⟩]
  else if s = "cu3?per_page=3" then .ok [⟨4, "big3"⟩, ⟨1, "m3"⟩]
  else .error (.responseError "unexpected endpoint")

/-- Dominance threshold `0.75`, three users considered. -/
def queryC2 : BusFactorQuery := ⟨mkRat 3 4, 3⟩

/-- Repository-page transport serving the same three-item page everywhere. -/
def fetchC3 : Nat → Nat → Except ApiError Repos := fun _ _ => .ok reposC2

/-- Contributor transport that always delivers an empty list. -/
def fetchEmpty : String → Except ApiError Contributions := fun _ =>
  .ok ([] : Contributions)

/-- Contributor transport failing on the second repository only. -/
def fetchC5 : String → Except ApiError Contributions := fun s =>
  if s = "cu2?per_page=3" then .error (.responseError "fetch failed")
  else if s = "cu1?per_page=3" then .ok [⟨10, "a1"⟩]
  else if s = "cu3?per_page=3" then .ok [⟨10, "a3"⟩]
  else .error (.responseError "unexpected endpoint")

/-- Repository-page transport that fails every fetch. -/
def fetchFail : Nat → Nat → Except ApiError Repos := fun _ _ =>
  .error (.responseError "E")

/-- Repository-page transport that succeeds with an empty page. -/
def fetchShort : Nat → Nat → Except ApiError Repos := fun _ _ => .ok ⟨[]⟩

/-- The code's left fold over contributions computes the sum of the
contribution counts. -/
theorem foldl_contributions (l : Contributions) (n : Nat) :
    l.foldl (fun acc contr => acc + contr.contributions) n =
      n + (l.map (fun c => c.contributions)).sum := by
  induction l generalizing n with
  | nil => simp
  | cons c cs ih => simp [ih, Nat.add_assoc]

/-- The executable rational `mkRat` agrees with field division on casts. -/
theorem mkRat_natCast (a b : Nat) : mkRat a b = (a : ℚ) / (b : ℚ) := by
  rw [Rat.mkRat_eq_div]
  norm_num

/-- C7: for every endpoint, `calculate_repo_share` invoked with
`users_to_consider = 0` fails with the `InvalidQueryError` validation error
(distinct from the transport error constructor) and issues zero transport
calls. -/
theorem calculate_repo_share_zero_topk
    (fetch : String → Except ApiError Contributions) (contributors_url : String) :
    calculate_repo_share fetch contributors_url 0 =
      (.error (.invalidQueryError "Number of users to consider must be greater than 0."),
       ([] : List String)) := rfl

/-- C10: on the empty repository list, `get_repos_bus_factor` returns `ok []`
for every query and transport, including queries with
`users_to_consider = 0`: the `top_k` validation lives inside
`calculate_repo_share`, which is never invoked. -/
theorem get_repos_bus_factor_empty_repos
    (fetch : String → Except ApiError Contributions) (query : BusFactorQuery) :
    get_repos_bus_factor fetch ⟨[]⟩ query = .ok [] := rfl

/-- C4 counterexample: with a transport delivering an empty contributor list,
`calculate_repo_share` panics (out-of-bounds index into `contributions[0]`);
it does not return any error value, so in particular no distinct
empty-contributors error. -/
theorem calculate_repo_share_empty_counterexample :
    (calculate_repo_share fetchEmpty "url" 3).1 = Outcome.panicked := by decide

/-- C4 (amended): for every positive `users_to_consider`, when the fetched
contributor list is empty `calculate_repo_share` panics on the out-of-bounds
index `contributions[0]` instead of returning a distinct error (no
empty-contributors error type exists in the code). -/
theorem calculate_repo_share_empty_panics
    (fetch : String → Except ApiError Contributions) (url : String) (k : Nat)
    (hk : 0 < k)
    (hfetch : fetch (contributorsEndpoint url k) = .ok ([] : Contributions)) :
    (calculate_repo_share fetch url k).1 = Outcome.panicked := by
  unfold calculate_repo_share
  rw [if_neg (by omega)]
  simp only [hfetch]

/-- Witness for C4's amended theorem at the concrete empty transport. -/
theorem calculate_repo_share_empty_panics_witness :
    (calculate_repo_share fetchEmpty "u9" 2).1 = Outcome.panicked :=
  calculate_repo_share_empty_panics fetchEmpty "u9" 2 (by decide) rfl

/-- C1: for a positive `users_to_consider` and a fetched contributor list with
leader `leader`, the result is `ok` with the leader's login and the leader's
contribution count divided by the sum of the contribution counts over the
fetched list only. -/
theorem calculate_repo_share_leader_share
    (fetch : String → Except ApiError Contributions) (url : String) (k : Nat)
    (leader : ContributorData) (rest : Contributions)
    (hk : 0 < k)
    (hfetch : fetch (contributorsEndpoint url k) = .ok (leader :: rest)) :
    (calculate_repo_share fetch url k).1 =
      .ok { bus_factor :=
              (leader.contributions : ℚ) /
                ((((leader :: rest).map (fun c => c.contributions)).sum : ℚ)),
            user_name := leader.login } := by
  unfold calculate_repo_share
  rw [if_neg (by omega)]
  simp only [hfetch]
  rw [foldl_contributions, mkRat_natCast]
  norm_num [Function.comp_def]

/-- Witness for C1 at the spec's `[15, 3, 1]` example: the share is `15/19`. -/
theorem calculate_repo_share_leader_share_witness :
    (calculate_repo_share fetchC1 "u1" 3).1 =
      .ok { bus_factor := (15 : ℚ) / 19, user_name := "user1" } := by
  have h := calculate_repo_share_leader_share fetchC1 "u1" 3
    ⟨15, "user1"⟩ [⟨3, "user2"⟩, ⟨1, "user3"⟩] (by decide) rfl
  rw [h]
  norm_num

/-- Mapping `Outcome.ok` over a list never yields a panic. -/
theorem any_isPanicked_map_ok (shares : List UserShare) :
    (shares.map Outcome.ok).any Outcome.isPanicked = false := by
  induction shares with
  | nil => rfl
  | cons s ss ih => simp [Outcome.isPanicked, ih]

/-- On all-successful responses the assembly loop keeps, in input order,
exactly the repositories whose leader share reaches the threshold. -/
theorem busLoop_all_ok (t : ℚ) (shares : List UserShare) (items : List RepoData) :
    busLoop t ((shares.map Outcome.ok).zip items) =
      .ok ((shares.zip items).filterMap (fun p =>
        if t ≤ p.1.bus_factor then
          some { repo_name := p.2.name, stars := p.2.stargazers_count, leader := p.1 }
        else none)) := by
  induction shares generalizing items with
  | nil => simp [busLoop]
  | cons s ss ih =>
    cases items with
    | nil => simp [busLoop]
    | cons i is =>
      simp only [List.zip, List.map_cons, List.zipWith_cons_cons, busLoop,
        List.filterMap_cons] at ih ⊢
      rw [ih is]
      by_cases hc : t ≤ s.bus_factor <;> simp [hc]

/-- C2: when every per-repository share computation succeeds (the responses
are `ok` with the given shares, in input order), `get_repos_bus_factor`
returns exactly the repositories whose leader share is at least the
threshold, in input order, each paired with its name and star count. -/
theorem get_repos_bus_factor_filters_by_threshold
    (fetch : String → Except ApiError Contributions)
    (repos : Repos) (query : BusFactorQuery) (shares : List UserShare)
    (h : busOutcomes fetch repos query = shares.map Outcome.ok) :
    get_repos_bus_factor fetch repos query =
      .ok ((shares.zip repos.items).filterMap (fun p =>
        if query.bus_threshold ≤ p.1.bus_factor then
          some { repo_name := p.2.name, stars := p.2.stargazers_count, leader := p.1 }
        else none)) := by
  simp only [get_repos_bus_factor, h, any_isPanicked_map_ok, Bool.false_eq_true,
    if_false]
  exact busLoop_all_ok _ _ _

/-- Witness for C2: shares `18/19`, `3/5`, `4/5` against threshold `3/4`
keep the first and third repository, in order, with their metadata. -/
theorem get_repos_bus_factor_filters_witness :
    get_repos_bus_factor fetchC2 reposC2 queryC2 =
      .ok [{ repo_name := "repo1", stars := 260209,
             leader := { bus_factor := mkRat 18 19, user_name := "big1" } },
           { repo_name := "repo3", stars := 61545,
             leader := { bus_factor := mkRat 4 5, user_name := "big3" } }] := by
  have h := get_repos_bus_factor_filters_by_threshold fetchC2 reposC2 queryC2
    [⟨mkRat 18 19, "big1"⟩, ⟨mkRat 3 5, "big2"⟩, ⟨mkRat 4 5, "big3"⟩] (by decide)
  rw [h]
  decide

/-- When the outcome list holds no panic and its first error is `e`, the
assembly loop rejects the whole batch with `e`. -/
theorem busLoop_first_error (t : ℚ) (outs : List (Outcome UserShare))
    (items : List RepoData) (e : ApiError)
    (hlen : outs.length = items.length)
    (hnp : ∀ o ∈ outs, o ≠ Outcome.panicked)
    (hfe : firstErrorOut outs = some e) :
    busLoop t (outs.zip items) = .error e := by
  induction outs generalizing items with
  | nil => simp [firstErrorOut] at hfe
  | cons o os ih =>
    cases items with
    | nil => simp at hlen
    | cons i is =>
      cases o with
      | panicked => exact absurd rfl (hnp Outcome.panicked (by simp))
      | error e2 =>
        simp only [firstErrorOut, Option.some.injEq] at hfe
        subst hfe
        simp [busLoop]
      | ok s =>
        have hfe2 : firstErrorOut os = some e := hfe
        have hlen2 : os.length = is.length := by simpa using hlen
        have hnp2 : ∀ o ∈ os, o ≠ Outcome.panicked := fun o ho =>
          hnp o (List.mem_cons_of_mem _ ho)
        simp only [List.zip, List.zipWith_cons_cons, busLoop] at ih ⊢
        rw [ih is hlen2 hnp2 hfe2]

/-- C5: when no per-repository computation panics and at least one fails,
`get_repos_bus_factor` returns the error of the failing repository with the
smallest input index and produces no result list. -/
theorem get_repos_bus_factor_first_error
    (fetch : String → Except ApiError Contributions)
    (repos : Repos) (query : BusFactorQuery) (e : ApiError)
    (hnp : ∀ o ∈ busOutcomes fetch repos query, o ≠ Outcome.panicked)
    (hfe : firstErrorOut (busOutcomes fetch repos query) = some e) :
    get_repos_bus_factor fetch repos query = .error e := by
  have hlen : (busOutcomes fetch repos query).length = repos.items.length := by
    simp [busOutcomes]
  have hany : (busOutcomes fetch repos query).any Outcome.isPanicked = false := by
    rw [List.any_eq_false]
    intro o ho
    cases o with
    | panicked => exact absurd rfl (hnp _ ho)
    | error e2 => simp [Outcome.isPanicked]
    | ok s => simp [Outcome.isPanicked]
  simp only [get_repos_bus_factor, hany, Bool.false_eq_true, if_false]
  exact busLoop_first_error _ _ _ _ hlen hnp hfe

/-- Witness for C5: the second of three contributor fetches fails; the whole
aggregation fails with that error although repositories 1 and 3 succeed. -/
theorem get_repos_bus_factor_first_error_witness :
    get_repos_bus_factor fetchC5 reposC2 queryC2 =
      .error (.responseError "fetch failed") :=
  get_repos_bus_factor_first_error fetchC5 reposC2 queryC2
    (.responseError "fetch failed") (by decide) (by decide)

/-- When every listed fetch succeeds as prescribed by `g`, the first-error
collection succeeds with the pages in call order. -/
theorem collectRepos_map_ok (fetch : Nat → Nat → Except ApiError Repos)
    (g : Nat → Repos) (calls : List (Nat × Nat))
    (h : ∀ c ∈ calls, fetch c.1 c.2 = .ok (g c.1)) :
    collectRepos (calls.map (fun c => fetch c.1 c.2)) =
      .ok (calls.map (fun c => g c.1)) := by
  induction calls with
  | nil => rfl
  | cons c cs ih =>
    have hc := h c (List.mem_cons_self c cs)
    have ih2 := ih (fun d hd => h d (List.mem_cons_of_mem _ hd))
    simp [collectRepos, hc, ih2, Except.map]

/-- The repository accumulation fold concatenates page items in order. -/
theorem foldl_append_items (pages : List Repos) (init : List RepoData) :
    pages.foldl (fun acc r => acc ++ r.items) init =
      init ++ (pages.map (fun r => r.items)).flatten := by
  induction pages generalizing init with
  | nil => simp
  | cons p ps ih => simp [ih, List.append_assoc]

/-- The first-error collection fails with `e` exactly when the first failing
call in the list fails with `e`. -/
theorem collectRepos_map_error_iff (fetch : Nat → Nat → Except ApiError Repos)
    (calls : List (Nat × Nat)) (e : ApiError) :
    collectRepos (calls.map (fun c => fetch c.1 c.2)) = .error e ↔
      firstFetchError fetch calls = some e := by
  induction calls with
  | nil => simp [collectRepos, firstFetchError]
  | cons c cs ih =>
    cases hc : fetch c.1 c.2 with
    | error e2 => simp [collectRepos, firstFetchError, hc]
    | ok r =>
      simp only [List.map_cons, hc, collectRepos, firstFetchError]
      rw [← ih]
      cases hx : collectRepos (cs.map (fun c => fetch c.1 c.2)) <;>
        simp [Except.map]

/-- No call fails exactly when every fetch in the list succeeds. -/
theorem firstFetchError_none (fetch : Nat → Nat → Except ApiError Repos)
    (calls : List (Nat × Nat)) :
    firstFetchError fetch calls = none ↔
      ∀ c ∈ calls, isOkE (fetch c.1 c.2) = true := by
  induction calls with
  | nil => simp [firstFetchError]
  | cons c cs ih =>
    cases hc : fetch c.1 c.2 with
    | error e => simp [firstFetchError, hc, isOkE]
    | ok r => simp [firstFetchError, hc, isOkE, ih]

/-- Skipping a prefix of successful calls leaves the first error unchanged. -/
theorem firstFetchError_append_of_none (fetch : Nat → Nat → Except ApiError Repos)
    (xs ys : List (Nat × Nat)) (h : firstFetchError fetch xs = none) :
    firstFetchError fetch (xs ++ ys) = firstFetchError fetch ys := by
  induction xs with
  | nil => simp
  | cons c cs ih =>
    cases hc : fetch c.1 c.2 with
    | error e => simp [firstFetchError, hc] at h
    | ok r =>
      simp only [firstFetchError, hc] at h
      rw [List.cons_append]
      simp only [firstFetchError, hc]
      exact ih h

/-- C3: `get_repos` issues exactly the planned transport calls (full pages
`1..count/100` at `PAGE_LIMIT` items each, then one remainder page requesting
`PAGE_LIMIT` items — or exactly the remainder when there are no full pages);
when every planned fetch succeeds with the requested number of items the
result concatenates the full pages in page order, appends only the first
`count % 100` items of the remainder page, and has exactly `count` items;
`count = 0` yields an empty collection with no fetch issued. -/
theorem get_repos_page_plan (fetch : Nat → Nat → Except ApiError Repos)
    (g : Nat → Repos) (count : Nat)
    (H : ∀ c ∈ plannedCalls count,
      fetch c.1 c.2 = .ok (g c.1) ∧ (g c.1).items.length = c.2) :
    (get_repos fetch count).2 = plannedCalls count ∧
    (get_repos fetch count).1 =
      .ok ⟨((List.range (count / PAGE_LIMIT)).map (fun i => (g (i + 1)).items)).flatten ++
           (if 0 < count % PAGE_LIMIT then
              (g (count / PAGE_LIMIT + 1)).items.take (count % PAGE_LIMIT)
            else [])⟩ ∧
    (((List.range (count / PAGE_LIMIT)).map (fun i => (g (i + 1)).items)).flatten ++
       (if 0 < count % PAGE_LIMIT then
          (g (count / PAGE_LIMIT + 1)).items.take (count % PAGE_LIMIT)
        else [])).length = count ∧
    (count = 0 → get_repos fetch count = (.ok ⟨[]⟩, [])) := by
  have hzero : count = 0 → get_repos fetch count = (.ok ⟨[]⟩, []) := by
    intro h0
    subst h0
    rfl
  have hfull : ∀ c ∈ (List.range (count / PAGE_LIMIT)).map (fun i => (i + 1, PAGE_LIMIT)),
      fetch c.1 c.2 = .ok (g c.1) :=
    fun c hc => (H c (List.mem_append_left _ hc)).1
  have hcollect := collectRepos_map_ok fetch g _ hfull
  have hlenfull : ∀ i ∈ List.range (count / PAGE_LIMIT),
      (g (i + 1)).items.length = PAGE_LIMIT := by
    intro i hi
    exact (H (i + 1, PAGE_LIMIT)
      (List.mem_append_left _ (List.mem_map_of_mem _ hi))).2
  have hjoin : (((List.range (count / PAGE_LIMIT)).map
      (fun i => (g (i + 1)).items)).flatten).length =
        count / PAGE_LIMIT * PAGE_LIMIT := by
    rw [List.length_flatten, List.map_map]
    have hmap : (List.range (count / PAGE_LIMIT)).map
        (List.length ∘ fun i => (g (i + 1)).items) =
          (List.range (count / PAGE_LIMIT)).map (fun _ => PAGE_LIMIT) :=
      List.map_congr_left (fun i hi => hlenfull i hi)
    rw [hmap]
    simp [List.map_const', List.sum_replicate, smul_eq_mul, Nat.mul_comm]
  by_cases hrem : 0 < count % PAGE_LIMIT
  · have hrc : (count / PAGE_LIMIT + 1,
        if count / PAGE_LIMIT = 0 then count % PAGE_LIMIT else PAGE_LIMIT) ∈
          plannedCalls count := by
      unfold plannedCalls
      rw [if_pos hrem]
      exact List.mem_append_right _ (List.mem_singleton.mpr rfl)
    have hfetchr : fetch (count / PAGE_LIMIT + 1)
        (if count / PAGE_LIMIT = 0 then count % PAGE_LIMIT else PAGE_LIMIT) =
          .ok (g (count / PAGE_LIMIT + 1)) := (H _ hrc).1
    have hlenr : (g (count / PAGE_LIMIT + 1)).items.length =
        (if count / PAGE_LIMIT = 0 then count % PAGE_LIMIT else PAGE_LIMIT) :=
      (H _ hrc).2
    have hle : count % PAGE_LIMIT ≤
        (if count / PAGE_LIMIT = 0 then count % PAGE_LIMIT else PAGE_LIMIT) := by
      by_cases h0 : count / PAGE_LIMIT = 0
      · rw [if_pos h0]
      · rw [if_neg h0]
        exact Nat.le_of_lt (Nat.mod_lt _ (by unfold PAGE_LIMIT; omega))
    have hcond : count % PAGE_LIMIT ≤ (g (count / PAGE_LIMIT + 1)).items.length := by
      rw [hlenr]
      exact hle
    refine ⟨?_, ?_, ?_, hzero⟩
    · simp only [get_repos, get_pages, hcollect, if_pos hrem, hfetchr,
        if_pos hcond]
      unfold plannedCalls
      rw [if_pos hrem]
    · simp only [get_repos, get_pages, hcollect, if_pos hrem, hfetchr,
        if_pos hcond]
      rw [foldl_append_items]
      simp [List.map_map, Function.comp_def]
    · rw [List.length_append, hjoin, if_pos hrem, List.length_take, hlenr,
        Nat.min_eq_left hle, Nat.mul_comm]
      exact Nat.div_add_mod count PAGE_LIMIT
  · refine ⟨?_, ?_, ?_, hzero⟩
    · simp only [get_repos, get_pages, hcollect, if_neg hrem]
      unfold plannedCalls
      rw [if_neg hrem, List.append_nil]
    · simp only [get_repos, get_pages, hcollect, if_neg hrem]
      rw [foldl_append_items]
      simp [List.map_map, Function.comp_def]
    · rw [List.length_append, hjoin, if_neg hrem, List.length_nil, Nat.add_zero,
        Nat.mul_comm]
      have hdm := Nat.div_add_mod count PAGE_LIMIT
      omega

/-- Witness for C3: `target_count = 3` issues the single planned call
`(page 1, 3 items)` and returns the page's three repositories. -/
theorem get_repos_page_plan_witness :
    (get_repos fetchC3 3).2 = [(1, 3)] ∧ (get_repos fetchC3 3).1 = .ok reposC2 := by
  have h := get_repos_page_plan fetchC3 (fun _ => reposC2) 3 (by
    intro c hc
    have hp : plannedCalls 3 = [(1, 3)] := by decide
    rw [hp] at hc
    have hc2 : c = (1, 3) := List.mem_singleton.mp hc
    subst hc2
    exact ⟨rfl, rfl⟩)
  exact ⟨h.1.trans (by decide), h.2.1.trans (by decide)⟩

/-- C6: if some transport call issued by `get_repos` fails, the whole
operation fails with the error of the first failing issued call; no partial
collection is returned. -/
theorem get_repos_fail_fast (fetch : Nat → Nat → Except ApiError Repos)
    (count : Nat) (e : ApiError)
    (h : firstFetchError fetch ((get_repos fetch count).2) = some e) :
    (get_repos fetch count).1 = Outcome.error e := by
  cases hcol : collectRepos (((List.range (count / PAGE_LIMIT)).map
      (fun i => (i + 1, PAGE_LIMIT))).map (fun c => fetch c.1 c.2)) with
  | error e2 =>
    have hsnd : (get_repos fetch count).2 =
        (List.range (count / PAGE_LIMIT)).map (fun i => (i + 1, PAGE_LIMIT)) := by
      simp only [get_repos, get_pages, hcol]
    have hff := (collectRepos_map_error_iff fetch _ e2).mp hcol
    rw [hsnd, hff] at h
    obtain rfl : e2 = e := Option.some.inj h
    simp only [get_repos, get_pages, hcol]
  | ok pages =>
    have hnone : firstFetchError fetch ((List.range (count / PAGE_LIMIT)).map
        (fun i => (i + 1, PAGE_LIMIT))) = none := by
      cases hff : firstFetchError fetch ((List.range (count / PAGE_LIMIT)).map
          (fun i => (i + 1, PAGE_LIMIT))) with
      | none => rfl
      | some e3 =>
        have hcontra := (collectRepos_map_error_iff fetch _ e3).mpr hff
        rw [hcol] at hcontra
        exact absurd hcontra (by simp)
    by_cases hrem : 0 < count % PAGE_LIMIT
    · cases hfr : fetch (count / PAGE_LIMIT + 1)
          (if count / PAGE_LIMIT = 0 then count % PAGE_LIMIT else PAGE_LIMIT) with
      | error e3 =>
        have hsnd : (get_repos fetch count).2 =
            (List.range (count / PAGE_LIMIT)).map (fun i => (i + 1, PAGE_LIMIT)) ++
              [(count / PAGE_LIMIT + 1,
                if count / PAGE_LIMIT = 0 then count % PAGE_LIMIT else PAGE_LIMIT)] := by
          simp only [get_repos, get_pages, hcol, if_pos hrem, hfr]
        rw [hsnd, firstFetchError_append_of_none fetch _ _ hnone] at h
        have hlast : firstFetchError fetch
            [(count / PAGE_LIMIT + 1,
              if count / PAGE_LIMIT = 0 then count % PAGE_LIMIT else PAGE_LIMIT)] =
              some e3 := by
          simp [firstFetchError, hfr]
        rw [hlast] at h
        obtain rfl : e3 = e := Option.some.inj h
        simp only [get_repos, get_pages, hcol, if_pos hrem, hfr]
      | ok r =>
        have hsnd : (get_repos fetch count).2 =
            (List.range (count / PAGE_LIMIT)).map (fun i => (i + 1, PAGE_LIMIT)) ++
              [(count / PAGE_LIMIT + 1,
                if count / PAGE_LIMIT = 0 then count % PAGE_LIMIT else PAGE_LIMIT)] := by
          by_cases hlen : count % PAGE_LIMIT ≤ r.items.length
          · simp only [get_repos, get_pages, hcol, if_pos hrem, hfr, if_pos hlen]
          · simp only [get_repos, get_pages, hcol, if_pos hrem, hfr, if_neg hlen]
        rw [hsnd, firstFetchError_append_of_none fetch _ _ hnone] at h
        have hlast : firstFetchError fetch
            [(count / PAGE_LIMIT + 1,
              if count / PAGE_LIMIT = 0 then count % PAGE_LIMIT else PAGE_LIMIT)] =
              none := by
          simp [firstFetchError, hfr]
        rw [hlast] at h
        exact absurd h (by simp)
    · have hsnd : (get_repos fetch count).2 =
          (List.range (count / PAGE_LIMIT)).map (fun i => (i + 1, PAGE_LIMIT)) := by
        simp only [get_repos, get_pages, hcol, if_neg hrem]
      rw [hsnd, hnone] at h
      exact absurd h (by simp)

/-- Witness for C6: the single issued fetch fails, and `get_repos` fails with
exactly that error. -/
theorem get_repos_fail_fast_witness :
    (get_repos fetchFail 1).1 = Outcome.error (.responseError "E") :=
  get_repos_fail_fast fetchFail 1 (.responseError "E") (by decide)

/-- C9: when the remainder page is actually fetched (positive remainder, all
full pages succeed) and succeeds, `get_repos` panics exactly when that page
holds fewer than `count % 100` items — the out-of-bounds slice
`res.items[0..last_page]` — so the function is total only when the remainder
page yields at least the remainder. -/
theorem get_repos_short_remainder_panics (fetch : Nat → Nat → Except ApiError Repos)
    (count : Nat) (r : Repos)
    (hrem : 0 < count % PAGE_LIMIT)
    (hfull : ∀ i ∈ List.range (count / PAGE_LIMIT),
      isOkE (fetch (i + 1) PAGE_LIMIT) = true)
    (hfetch : fetch (count / PAGE_LIMIT + 1)
        (if count / PAGE_LIMIT = 0 then count % PAGE_LIMIT else PAGE_LIMIT) = .ok r) :
    ((get_repos fetch count).1 = Outcome.panicked ↔
      r.items.length < count % PAGE_LIMIT) := by
  have hok : ∀ c ∈ (List.range (count / PAGE_LIMIT)).map (fun i => (i + 1, PAGE_LIMIT)),
      isOkE (fetch c.1 c.2) = true := by
    intro c hc
    obtain ⟨i, hi, rfl⟩ := List.mem_map.mp hc
    exact hfull i hi
  have hnone : firstFetchError fetch ((List.range (count / PAGE_LIMIT)).map
      (fun i => (i + 1, PAGE_LIMIT))) = none := (firstFetchError_none fetch _).mpr hok
  cases hcol : collectRepos (((List.range (count / PAGE_LIMIT)).map
      (fun i => (i + 1, PAGE_LIMIT))).map (fun c => fetch c.1 c.2)) with
  | error e2 =>
    have hcontra := (collectRepos_map_error_iff fetch _ e2).mp hcol
    rw [hnone] at hcontra
    exact absurd hcontra (by simp)
  | ok pages =>
    by_cases hlen : count % PAGE_LIMIT ≤ r.items.length
    · simp only [get_repos, get_pages, hcol, if_pos hrem, hfetch, if_pos hlen]
      constructor
      · intro hcontra
        exact absurd hcontra (by simp)
      · intro hlt
        exact absurd hlt (not_lt.mpr hlen)
    · simp only [get_repos, get_pages, hcol, if_pos hrem, hfetch, if_neg hlen]
      constructor
      · intro _
        exact not_le.mp hlen
      · intro _
        trivial

/-- Witness for C9: the remainder page for `target_count = 1` succeeds with
zero items, and `get_repos` panics. -/
theorem get_repos_short_remainder_panics_witness :
    (get_repos fetchShort 1).1 = Outcome.panicked :=
  (get_repos_short_remainder_panics fetchShort 1 ⟨[]⟩ (by decide) (by decide)
    rfl).mpr (by decide)

end BusFactor
